import Mathlib

/-!
Verification of the player-state synchronization adapter of the
TouNe-O-Matic UI (src/ui/assets/js/services/library.js, MPDClient part,
and src/ui/assets/js/store.js) against its natural-language specification.

The JavaScript code is shallowly embedded: JS values are modelled by the
inductive `JSVal`, JS numbers by `ℚ` (NaN is modelled as `Option.none` in
the coercion `toNumber`), and each source function becomes a Lean
function of the same name.  Asynchronous remote calls are modelled by
passing their results (`Except Unit JSVal`, where `.error` stands for a
rejected promise) explicitly to the function that awaits them.
-/

/-- A JavaScript value, as far as the adapter's payload handling needs:
`undefined`, `null`, booleans, (finite) numbers, strings, arrays and
plain objects (an object is an association list of string keys). -/
inductive JSVal where
  | undefined
  | null
  | bool (b : Bool)
  | num (q : ℚ)
  | str (s : String)
  | arr (elems : List JSVal)
  | obj (fields : List (String × JSVal))

/-- Property lookup `o[k]` / `o?.k`: `undefined` on a missing key list. -/
def getEntry : List (String × JSVal) → String → JSVal
  | [], _ => .undefined
  | (k', v) :: rest, k => if k' = k then v else getEntry rest k

/-- Property access `o?.k`: `undefined` when the receiver is not an
object (matching optional chaining on `null`/`undefined` and the absence
of own properties on the primitives the adapter meets). -/
def getKey : JSVal → String → JSVal
  | .obj fields, k => getEntry fields k
  | _, _ => .undefined

/-- JS truthiness: `undefined`, `null`, `false`, `0` and `""` are falsy;
every other value the model can represent is truthy. -/
def jsTruthy : JSVal → Bool
  | .undefined => false
  | .null => false
  | .bool b => b
  | .num q => decide (q ≠ 0)
  | .str s => decide (s ≠ "")
  | .arr _ => true
  | .obj _ => true

/-- The JS `||` operator: the left operand when truthy, else the right. -/
def jsOr (a b : JSVal) : JSVal := if jsTruthy a then a else b

/-- `x == null` (loose): true exactly for `null` and `undefined`. -/
def isNullish : JSVal → Bool
  | .undefined => true
  | .null => true
  | _ => false

/-- The JS `??` (nullish coalescing) operator. -/
def jsCoalesce (a b : JSVal) : JSVal := if isNullish a then b else a

/-- Digit string to natural number (helper for the `Number(...)` model). -/
def digitsToNat (cs : List Char) : ℕ :=
  cs.foldl (fun a c => a * 10 + (c.toNat - 48)) 0

/-- Helper for `String.prototype.split` with a one-character separator. -/
def splitOnCharAux (c : Char) : List Char → List Char → List (List Char)
  | [], acc => [acc.reverse]
  | x :: xs, acc =>
    if x = c then acc.reverse :: splitOnCharAux c xs []
    else splitOnCharAux c xs (x :: acc)

/-- `s.split(c)` for a one-character separator (the only separators the
adapter uses are `":"`, `"/"`). -/
def splitOnChar (c : Char) (cs : List Char) : List (List Char) := splitOnCharAux c cs []

/-- `s.split(c)` at the string level. -/
def strSplitOnChar (c : Char) (s : String) : List String :=
  (splitOnChar c s.data).map String.mk

/-- Whitespace for the purposes of `String.prototype.trim`. -/
def isJsSpace (ch : Char) : Bool :=
  ch = ' ' ∨ ch = '\t' ∨ ch = '\n' ∨ ch = '\r' ∨ ch = '\x0b' ∨ ch = '\x0c'

/-- `s.trim()` as a character list. -/
def jsTrim (s : String) : List Char :=
  ((s.data.dropWhile isJsSpace).reverse.dropWhile isJsSpace).reverse

/-- `Number(s)` on a string: trimmed empty string is `0`; an optional
sign followed by a decimal numeral parses to its value; anything else is
NaN (`none`).  (Hex/exponent/Infinity forms never occur in the payloads
the adapter meets and are conservatively NaN here.) -/
def strToNumber (s : String) : Option ℚ :=
  let cs := jsTrim s
  if cs.isEmpty then some 0 else
  let signBody : Bool × List Char :=
    match cs with
    | '-' :: rest => (true, rest)
    | '+' :: rest => (false, rest)
    | _ => (false, cs)
  let signed : ℚ → ℚ := fun v => if signBody.1 then -v else v
  match (signBody.2).splitOn '.' with
  | [ip] =>
    if ip ≠ [] ∧ ip.all Char.isDigit then some (signed ((digitsToNat ip : ℕ) : ℚ))
    else none
  | [ip, fp] =>
    if (ip ≠ [] ∨ fp ≠ []) ∧ ip.all Char.isDigit ∧ fp.all Char.isDigit then
      some (signed (mkRat (digitsToNat ip * 10 ^ fp.length + digitsToNat fp) (10 ^ fp.length)))
    else none
  | _ => none

/-- Decimal rendering of a JS number (exact for the integral values the
adapter produces; a non-integral rational keeps Lean's `ℚ` rendering). -/
def numToString (q : ℚ) : String :=
  if q.den = 1 then toString q.num else toString q

mutual

/-- `String(v)`: string conversion.  Array elements that are
`null`/`undefined` render as the empty string, as in `Array.prototype.join`. -/
def jsToString : JSVal → String
  | .undefined => "undefined"
  | .null => "null"
  | .bool b => if b then "true" else "false"
  | .num q => numToString q
  | .str s => s
  | .arr elems => String.intercalate "," (jsJoinParts elems)
  | .obj _ => "[object Object]"
termination_by structural v => v

/-- Join parts of `Array.prototype.join`: `null` and `undefined`
elements become the empty string. -/
def jsJoinParts : List JSVal → List String
  | [] => []
  | .undefined :: rest => "" :: jsJoinParts rest
  | .null :: rest => "" :: jsJoinParts rest
  | v :: rest => jsToString v :: jsJoinParts rest
termination_by structural l => l

end

/-- `Number(v)`: numeric coercion; `none` models NaN. -/
def toNumber : JSVal → Option ℚ
  | .undefined => none
  | .null => some 0
  | .bool b => some (if b then 1 else 0)
  | .num q => some q
  | .str s => strToNumber s
  | .arr elems => strToNumber (jsToString (.arr elems))
  | .obj _ => none

/-- `Number(v) || 0`: NaN (and `0` itself) collapse to `0`. -/
def numOr0 (v : JSVal) : ℚ := (toNumber v).getD 0

/-- Strict equality `v === "s"` against a string literal. -/
def jsStrictEqStr (v : JSVal) (s : String) : Bool :=
  match v with
  | .str t => t == s
  | _ => false

/-- Last segment of a path: `s.split("/").pop()`. -/
def lastSeg (s : String) : String := ((strSplitOnChar '/' s).getLastD "")

/-- A normalized track, the record literal built by `toTrack`:
`{ path: file, title, artist, album, duration, trackNo, year }`.
The string-like fields keep the raw JS value the source stores. -/
structure Track where
  path : JSVal
  title : JSVal
  artist : JSVal
  album : JSVal
  duration : ℚ
  trackNo : Option ℚ
  year : Option ℚ

/-- `parseTrackNo(val)`: falsy input gives `null`; else the numeric value
of the part before the first `/`, or `null` when that is NaN. -/
def parseTrackNo (val : JSVal) : Option ℚ :=
  if ¬ jsTruthy val then none
  else strToNumber ((strSplitOnChar '/' (jsToString val)).headD "")

/-- `parseYear(val)`: falsy input gives `null`; else the numeric value of
the first four characters, or `null` when that is NaN. -/
def parseYear (val : JSVal) : Option ℚ :=
  if ¬ jsTruthy val then none
  else strToNumber (String.mk ((jsToString val).data.take 4))

/-- `toTrack(song)`: normalization of a raw song record into a `Track`;
`none` models the `null` returned for falsy input and for records with
neither a file path nor a title. -/
def toTrack (song : JSVal) : Option Track :=
  if ¬ jsTruthy song then none
  else
    let file := jsOr (getKey song "file") (jsOr (getKey song "File") (.str ""))
    if ¬ jsTruthy file ∧ ¬ jsTruthy (getKey song "Title") ∧ ¬ jsTruthy (getKey song "title")
    then none
    else
      some {
        path := file
        title := jsOr (getKey song "Title") (jsOr (getKey song "title")
          (if jsTruthy file then .str (lastSeg (jsToString file)) else .str ""))
        artist := jsOr (getKey song "Artist") (jsOr (getKey song "artist")
          (jsOr (getKey song "AlbumArtist") (jsOr (getKey song "albumartist") (.str ""))))
        album := jsOr (getKey song "Album") (jsOr (getKey song "album") (.str ""))
        duration := numOr0 (jsCoalesce (getKey song "Time")
          (jsCoalesce (getKey song "time") (jsCoalesce (getKey song "duration") (.num 0))))
        trackNo := parseTrackNo (jsCoalesce (getKey song "Track") (getKey song "track"))
        year := parseYear (jsCoalesce (getKey song "Date") (getKey song "date"))
      }

/-- `parseElapsed(st)`: explicit `elapsed` field first, else the part of
the `time` string before the `:`, else `0`. -/
def parseElapsed (st : JSVal) : ℚ :=
  if ¬ isNullish (getKey st "elapsed") then numOr0 (getKey st "elapsed")
  else if jsTruthy (getKey st "time") then
    numOr0 (.str ((strSplitOnChar ':' (jsToString (getKey st "time"))).headD ""))
  else 0

/-- `parseDuration(st, current)`: explicit `duration` field first, else
the part of the `time` string after the `:`, else the current song's
`Time`/`duration` field, else `0`. -/
def parseDuration (st current : JSVal) : ℚ :=
  if ¬ isNullish (getKey st "duration") then numOr0 (getKey st "duration")
  else if jsTruthy (getKey st "time") then
    match (strSplitOnChar ':' (jsToString (getKey st "time"))).get? 1 with
    | some d => numOr0 (.str d)
    | none => 0
  else if ¬ isNullish (getKey current "Time") then numOr0 (getKey current "Time")
  else if ¬ isNullish (getKey current "duration") then numOr0 (getKey current "duration")
  else 0

/-- `Array.prototype.findIndex` (an integral JS number: the index, or `-1`). -/
def jsFindIndex (p : JSVal → Bool) : List JSVal → ℤ
  | [] => -1
  | x :: xs =>
    if p x then 0
    else if jsFindIndex p xs < 0 then -1 else jsFindIndex p xs + 1

/-- `parseIndex(st, current, queue)`: explicit `song` position first,
else the position of `current.id` in the queue, else `-1`. -/
def parseIndex (st current : JSVal) (queue : List JSVal) : ℚ :=
  if ¬ isNullish (getKey st "song") then numOr0 (getKey st "song")
  else if ¬ isNullish (getKey current "id") then
    ((jsFindIndex (fun q => jsToString (getKey q "id") == jsToString (getKey current "id")) queue : ℤ) : ℚ)
  else -1

/-- `parseRepeat(st)`: the pair of `repeat`/`single` flags folded into
the three-way mode. -/
def parseRepeat (st : JSVal) : String :=
  let rep := jsStrictEqStr (getKey st "repeat") "1"
  let single := jsStrictEqStr (getKey st "single") "1"
  if rep && single then "one"
  else if rep then "all"
  else "off"

/-- JS array subscript `queue[i]` with a JS-number index: the element
when `i` is an integral in-range index, `undefined` otherwise. -/
def queueGet (queue : List JSVal) (i : ℚ) : JSVal :=
  if i.den = 1 ∧ 0 ≤ i.num then queue.getD i.num.toNat .undefined else .undefined

/-- `Math.round(x)`: round half towards positive infinity. -/
def jsMathRound (x : ℚ) : ℤ := ⌊x + 1 / 2⌋

namespace MPDClient

/-- The `player` snapshot mutated by `_applyState` (shape of
`store.js`'s `state.player`, whose mock defaults seed the adapter). -/
structure Player where
  connected : Bool
  state : JSVal
  canSetVolume : Bool
  volume : ℚ
  random : Bool
  repeatMode : String
  elapsed : ℚ
  duration : ℚ
  track : Option Track
  queue : List Track
  index : ℚ

/-- The `state.player` defaults of `store.js` (the snapshot before any
refresh; `canSetVolume` is absent there, i.e. `undefined`, hence falsy). -/
def initialPlayer : Player :=
  { connected := false
    state := .str "pause"
    canSetVolume := false
    volume := 29
    random := false
    repeatMode := "off"
    elapsed := 0
    duration := 0
    track := none
    queue := []
    index := -1 }

/-- The expression `statusPayload?.status || {}` opening `_applyState`. -/
def statusOf (statusPayload : JSVal) : JSVal :=
  jsOr (getKey statusPayload "status") (.obj [])

/-- The expression `statusPayload?.current || statusPayload?.song || null`
of `_applyState`. -/
def currentOf (statusPayload : JSVal) : JSVal :=
  jsOr (getKey statusPayload "current") (jsOr (getKey statusPayload "song") .null)

/-- The expression `Array.isArray(queuePayload) ? queuePayload : []`
of `_applyState`. -/
def rawQueue (queuePayload : JSVal) : List JSVal :=
  match queuePayload with | .arr elems => elems | _ => []

/-- `MPDClient._applyState(statusPayload, queuePayload)`: the refresh
normalization, writing a fresh snapshot over `player` (only `volume`
survives from the previous snapshot, and only when no mixer is
reported). -/
def applyState (player : Player) (statusPayload queuePayload : JSVal) : Player :=
  let st := statusOf statusPayload
  let current := currentOf statusPayload
  let queue : List JSVal := rawQueue queuePayload
  let elapsed := parseElapsed st
  let duration := parseDuration st current
  let index := parseIndex st current queue
  let track : Option Track :=
    if jsTruthy current then toTrack current
    else if 0 ≤ index then toTrack (queueGet queue index) else none
  let volumeRaw := toNumber (getKey st "volume")
  let hasMixer := match volumeRaw with | some q => decide (0 ≤ q) | none => false
  { connected := true
    state := jsOr (getKey st "state") (.str "pause")
    canSetVolume := hasMixer
    volume := if hasMixer then volumeRaw.getD 0 else player.volume
    random := jsStrictEqStr (getKey st "random") "1"
    repeatMode := parseRepeat st
    elapsed := elapsed
    duration := if duration ≠ 0 then duration else (match track with | some t => t.duration | none => 0)
    track := track
    queue := queue.filterMap toTrack
    index := index }

/-- The status-acquisition phase of `MPDClient._refresh`: probe
`/state` (a rejection is caught and becomes `null`), unwrap
`wrapper?.state || wrapper`, and when that carries no truthy `status`
property fall through to the `/mpd/status` fetch, whose rejection
propagates. -/
def statusAcquire (stateRes statusRes : Except Unit JSVal) : Except Unit JSVal :=
  let wrapper : JSVal := match stateRes with | .ok v => v | .error _ => .null
  let status := jsOr (getKey wrapper "state") wrapper
  if jsTruthy (getKey status "status") then .ok status else statusRes

/-- `MPDClient._refresh()`, with the three awaited fetch results passed
explicitly: a failed status acquisition lands in the `catch` block that
only flips `connected` to `false`; otherwise a failed queue fetch is
replaced by `[]` and `_applyState` runs. -/
def refresh (player : Player) (stateRes statusRes queueRes : Except Unit JSVal) : Player :=
  match statusAcquire stateRes statusRes with
  | .error _ => { player with connected := false }
  | .ok status =>
    let queue : JSVal := match queueRes with | .ok v => v | .error _ => .arr []
    applyState player status queue

/-- The fetch results one REST-mode command consumes: the remote command
call itself (`_cmd`/`_post`, whose failure is NOT caught) and the three
fetches of the follow-up `_refresh`. -/
structure Transport where
  cmdRes : Except Unit Unit
  stateRes : Except Unit JSVal
  statusRes : Except Unit JSVal
  queueRes : Except Unit JSVal

/-- The shared REST-mode command shape `await this._cmd(...); await
this._refresh();`: the command call's rejection propagates to the
caller, while the refresh never rejects. -/
def restCommand (player : Player) (t : Transport) : Except Unit Player :=
  match t.cmdRes with
  | .error e => .error e
  | .ok _ => .ok (refresh player t.stateRes t.statusRes t.queueRes)

/-- `MPDClient.play()` in REST mode. -/
def play (player : Player) (t : Transport) : Except Unit Player := restCommand player t

/-- `MPDClient.pause()` in REST mode. -/
def pause (player : Player) (t : Transport) : Except Unit Player := restCommand player t

/-- `MPDClient.next()` in REST mode. -/
def next (player : Player) (t : Transport) : Except Unit Player := restCommand player t

/-- `MPDClient.prev()` in REST mode. -/
def prev (player : Player) (t : Transport) : Except Unit Player := restCommand player t

/-- `MPDClient.playAt(index)` in REST mode. -/
def playAt (player : Player) (_index : ℚ) (t : Transport) : Except Unit Player :=
  restCommand player t

/-- `MPDClient.clearQueue()` in REST mode. -/
def clearQueue (player : Player) (t : Transport) : Except Unit Player := restCommand player t

/-- `MPDClient.seek(seconds)` in REST mode. -/
def seek (player : Player) (_seconds : ℚ) (t : Transport) : Except Unit Player :=
  restCommand player t

/-- The value `next` computed by `MPDClient.setVolume(vol)`:
`Math.max(0, Math.min(100, Math.round(vol)))`. -/
def setVolumeNext (vol : ℚ) : ℚ := max 0 (min 100 ((jsMathRound vol : ℚ)))

/-- The command string `setVolume` transmits via `_cmd`. -/
def setVolumeCmd (vol : ℚ) : String := "volume " ++ numToString (setVolumeNext vol)

/-- `MPDClient.setVolume(vol)` in REST mode. -/
def setVolume (player : Player) (_vol : ℚ) (t : Transport) : Except Unit Player :=
  restCommand player t

/-- `MPDClient.setRandom(on)` in REST mode. -/
def setRandom (player : Player) (_on : Bool) (t : Transport) : Except Unit Player :=
  restCommand player t

/-- The next repeat mode `cycleRepeat` computes from the cached one. -/
def cycleRepeatNext (cur : String) : String :=
  if cur == "off" then "all" else if cur == "all" then "one" else "off"

/-- `MPDClient.cycleRepeat()` in REST mode. -/
def cycleRepeat (player : Player) (t : Transport) : Except Unit Player :=
  restCommand player t

/-- `MPDClient.toggle()`: branches on the cached `state`; every branch
is a REST command followed by a refresh. -/
def toggle (player : Player) (t : Transport) : Except Unit Player :=
  if jsStrictEqStr player.state "play" then pause player t
  else if jsStrictEqStr player.state "pause" then restCommand player t
  else play player t

end MPDClient

/-- Assignment `dst[k] = v` on an association-list object: replaces in
place, appends when the key is new. -/
def setKey : List (String × JSVal) → String → JSVal → List (String × JSVal)
  | [], k, v => [(k, v)]
  | (k', v') :: rest, k, v => if k' = k then (k', v) :: rest else (k', v') :: setKey rest k v

/-- `deepMerge(dst, patch)` of `store.js`, on object field lists: each
patch entry either merges recursively (when both the incoming and the
existing value are non-array objects) or overwrites wholesale. -/
def deepMergeObj : List (String × JSVal) → List (String × JSVal) → List (String × JSVal)
  | dst, [] => dst
  | dst, (k, v) :: rest =>
    match v, getEntry dst k with
    | .obj pv, .obj dv => deepMergeObj (setKey dst k (.obj (deepMergeObj dv pv))) rest
    | _, _ => deepMergeObj (setKey dst k v) rest
termination_by _ patch => sizeOf patch

/-- The observable store: its state tree and the registered subscribers
(identified by tokens, since only the call pattern matters). -/
structure Store where
  state : List (String × JSVal)
  subs : List ℕ

/-- `store.set(patch)`: merge, then synchronously notify every
subscriber with the full updated state.  The returned list records, in
order, each subscriber invocation and the state it received. -/
def storeSet (s : Store) (patch : List (String × JSVal)) : Store × List (ℕ × List (String × JSVal)) :=
  let st := deepMergeObj s.state patch
  ({ s with state := st }, s.subs.map (fun f => (f, st)))

/-- `store.get()`. -/
def storeGet (s : Store) : List (String × JSVal) := s.state

/-! ## Concrete payloads used as test inputs -/

/-- A current-song record carrying only a file path. -/
def currentA : JSVal := .obj [("file", .str "a.mp3")]

/-- A status payload whose explicit `song` position (5) exceeds the
bounds of a one-entry queue. -/
def statusSong5 : JSVal :=
  .obj [("status", .obj [("song", .num 5), ("state", .str "play")]), ("current", currentA)]

/-- A queue payload with a single entry. -/
def queueOneEntry : JSVal := .arr [.obj [("file", .str "b.mp3")]]

/-- Queue entry with id 1. -/
def songOne : JSVal := .obj [("id", .num 1), ("file", .str "a.mp3")]

/-- Queue entry with id 2. -/
def songTwo : JSVal := .obj [("id", .num 2), ("file", .str "b.mp3")]

/-- Queue entry with id 3. -/
def songThree : JSVal := .obj [("id", .num 3), ("file", .str "c.mp3")]

/-- A current-song record carrying only the id 2. -/
def currentIdOnly : JSVal := .obj [("id", .num 2)]

/-- A status payload with no explicit `song` position whose current-song
object has id 2. -/
def statusCurrentId2 : JSVal :=
  .obj [("status", .obj [("state", .str "play")]), ("current", currentIdOnly)]

/-- The three-entry queue payload `[{id:1},{id:2},{id:3}]` (with files). -/
def queueThree : JSVal := .arr [songOne, songTwo, songThree]

/-- A status payload reporting `volume: null`. -/
def statusVolumeNull : JSVal := .obj [("status", .obj [("volume", .null)])]

/-- A status payload reporting `volume: 20`. -/
def statusVolume20 : JSVal := .obj [("status", .obj [("volume", .num 20)])]

/-- A status payload carrying only `time: "37:214"`. -/
def statusTime : JSVal := .obj [("status", .obj [("time", .str "37:214")])]

/-- A raw status object with explicit `elapsed`/`duration` fields and a
conflicting `time` string. -/
def stExplicit : JSVal := .obj [("elapsed", .num 10), ("duration", .num 200), ("time", .str "37:214")]

/-! ## Helper lemmas -/

/-- Applying `_applyState` twice with the same payloads equals applying
it once: every field it writes is a function of the payloads alone,
except `volume`, which is preserved exactly when no mixer is reported. -/
theorem applyState_idem (p : MPDClient.Player) (sp qp : JSVal) :
    MPDClient.applyState (MPDClient.applyState p sp qp) sp qp = MPDClient.applyState p sp qp := by
  simp only [MPDClient.applyState]
  split_ifs <;> rfl

/-! ## C1 -/

/-- C1, counterexample: the claim says REST-mode commands never reject
when the underlying remote call fails; but when the `_cmd` fetch rejects
(`cmdRes = .error ()`), `play()` propagates the rejection to its caller. -/
theorem play_rejects_when_cmd_fails :
    MPDClient.play MPDClient.initialPlayer
      ⟨Except.error (), Except.error (), Except.error (), Except.error ()⟩ = Except.error () := rfl

/-- C1, amended: a REST-mode command's promise rejects exactly when the
remote command call itself fails; when the command call succeeds, any
failure of the follow-up refresh is swallowed, and the command resolves
with a snapshot marked `connected = false`.  Every public command
(`play`, `pause`, `next`, `prev`, `playAt`, `clearQueue`, `seek`,
`setVolume`, `setRandom`, `cycleRepeat`, and every branch of `toggle`)
shares this shape through `restCommand`; `play` is stated. -/
theorem play_failure_contract (p : MPDClient.Player) (t : MPDClient.Transport) :
    (MPDClient.play p t = Except.error () ↔ t.cmdRes = Except.error ()) ∧
    (t.cmdRes = Except.ok () →
      MPDClient.play p t = Except.ok (MPDClient.refresh p t.stateRes t.statusRes t.queueRes)) ∧
    (t.cmdRes = Except.ok () → MPDClient.statusAcquire t.stateRes t.statusRes = Except.error () →
      MPDClient.play p t = Except.ok { p with connected := false }) := by
  obtain ⟨c, s1, s2, s3⟩ := t
  cases c with
  | error e => cases e; simp [MPDClient.play, MPDClient.restCommand]
  | ok u =>
    cases u
    refine ⟨by simp [MPDClient.play, MPDClient.restCommand], fun _ => rfl, fun _ h2 => ?_⟩
    simp [MPDClient.play, MPDClient.restCommand, MPDClient.refresh, h2]

/-- Witness for C1's amended theorem at a concrete transport whose
command call succeeds but whose refresh fetches all fail. -/
theorem play_failure_contract_witness :
    MPDClient.play MPDClient.initialPlayer
      ⟨Except.ok (), Except.error (), Except.error (), Except.error ()⟩ =
      Except.ok { MPDClient.initialPlayer with connected := false } :=
  (play_failure_contract MPDClient.initialPlayer
    ⟨Except.ok (), Except.error (), Except.error (), Except.error ()⟩).2.2 rfl rfl

/-! ## C2 -/

/-- C2: when the status acquisition of `_refresh` fails (the `/state`
probe yields no usable status and the `/mpd/status` fetch rejects), the
snapshot after the refresh is exactly the previous one with
`connected := false`: every other player field retains its pre-failure
value. -/
theorem refresh_status_failure_preserves_fields (p : MPDClient.Player)
    (sr st qr : Except Unit JSVal) (h : MPDClient.statusAcquire sr st = Except.error ()) :
    MPDClient.refresh p sr st qr = { p with connected := false } ∧
    (MPDClient.refresh p sr st qr).connected = false ∧
    (MPDClient.refresh p sr st qr).state = p.state ∧
    (MPDClient.refresh p sr st qr).volume = p.volume ∧
    (MPDClient.refresh p sr st qr).canSetVolume = p.canSetVolume ∧
    (MPDClient.refresh p sr st qr).random = p.random ∧
    (MPDClient.refresh p sr st qr).repeatMode = p.repeatMode ∧
    (MPDClient.refresh p sr st qr).elapsed = p.elapsed ∧
    (MPDClient.refresh p sr st qr).duration = p.duration ∧
    (MPDClient.refresh p sr st qr).track = p.track ∧
    (MPDClient.refresh p sr st qr).queue = p.queue ∧
    (MPDClient.refresh p sr st qr).index = p.index := by
  have hr : MPDClient.refresh p sr st qr = { p with connected := false } := by
    simp [MPDClient.refresh, h]
  refine ⟨hr, ?_, ?_, ?_, ?_, ?_, ?_, ?_, ?_, ?_, ?_, ?_⟩ <;> rw [hr]

/-- Witness for C2 at a concrete failing transport and the initial
snapshot. -/
theorem refresh_status_failure_preserves_fields_witness :
    MPDClient.refresh MPDClient.initialPlayer (Except.error ()) (Except.error ()) (Except.error ()) =
      { MPDClient.initialPlayer with connected := false } :=
  (refresh_status_failure_preserves_fields MPDClient.initialPlayer
    (Except.error ()) (Except.error ()) (Except.error ()) rfl).1

/-! ## C5 -/

/-- C5: when the status acquisition succeeds but the `/mpd/queue` fetch
rejects, `_refresh` does not take the failure path: the rejection is
replaced by `[]`, normalization runs, `connected` becomes `true` and the
snapshot's queue becomes the empty list, discarding the previous one. -/
theorem refresh_queue_failure_keeps_connected (p : MPDClient.Player)
    (sr st : Except Unit JSVal) (status : JSVal)
    (h : MPDClient.statusAcquire sr st = Except.ok status) :
    MPDClient.refresh p sr st (Except.error ()) = MPDClient.applyState p status (.arr []) ∧
    (MPDClient.refresh p sr st (Except.error ())).connected = true ∧
    (MPDClient.refresh p sr st (Except.error ())).queue = [] := by
  have hr : MPDClient.refresh p sr st (Except.error ()) =
      MPDClient.applyState p status (.arr []) := by
    simp [MPDClient.refresh, h]
  refine ⟨hr, ?_, ?_⟩ <;> rw [hr] <;> simp [MPDClient.applyState, MPDClient.rawQueue]

/-- Witness for C5: the `/state` probe fails, `/mpd/status` delivers a
payload, the queue fetch fails. -/
theorem refresh_queue_failure_keeps_connected_witness :
    (MPDClient.refresh MPDClient.initialPlayer (Except.error ()) (Except.ok statusTime)
      (Except.error ())).connected = true ∧
    (MPDClient.refresh MPDClient.initialPlayer (Except.error ()) (Except.ok statusTime)
      (Except.error ())).queue = [] :=
  ⟨(refresh_queue_failure_keeps_connected MPDClient.initialPlayer
      (Except.error ()) (Except.ok statusTime) statusTime rfl).2.1,
   (refresh_queue_failure_keeps_connected MPDClient.initialPlayer
      (Except.error ()) (Except.ok statusTime) statusTime rfl).2.2⟩

/-! ## C10 -/

/-- C10: `refresh` is idempotent on the snapshot for a fixed, unchanged
backend response: running it twice with the same fetch results leaves
every player field with the same value as after the first run. -/
theorem refresh_idempotent (p : MPDClient.Player) (sr st qr : Except Unit JSVal) :
    MPDClient.refresh (MPDClient.refresh p sr st qr) sr st qr =
      MPDClient.refresh p sr st qr := by
  cases h : MPDClient.statusAcquire sr st with
  | error e => simp [MPDClient.refresh, h]
  | ok status => simp [MPDClient.refresh, h, applyState_idem]

/-! ## C3 -/

/-- `findIndex` returns `-1` or a position inside the searched list. -/
theorem jsFindIndex_bounds (p : JSVal → Bool) (l : List JSVal) :
    -1 ≤ jsFindIndex p l ∧ jsFindIndex p l < (l.length : ℤ) := by
  induction l with
  | nil => simp [jsFindIndex]
  | cons x xs ih =>
    obtain ⟨ih1, ih2⟩ := ih
    simp only [jsFindIndex, List.length_cons]
    push_cast
    split_ifs with h hr <;> omega

/-- C3, counterexample: the invariant `0 ≤ index < queue.length` for a
non-null track and non-empty queue fails on the code: a status payload
whose explicit `song` position is 5, with a current song and a one-entry
queue, normalizes to `index = 5`, a non-null `track` and a queue of
length 1. -/
theorem applyState_index_invariant_fails :
    (MPDClient.applyState MPDClient.initialPlayer statusSong5 queueOneEntry).track.isSome = true ∧
    (MPDClient.applyState MPDClient.initialPlayer statusSong5 queueOneEntry).queue.length = 1 ∧
    (MPDClient.applyState MPDClient.initialPlayer statusSong5 queueOneEntry).index = 5 ∧
    ¬ ((MPDClient.applyState MPDClient.initialPlayer statusSong5 queueOneEntry).index <
      ((MPDClient.applyState MPDClient.initialPlayer statusSong5 queueOneEntry).queue.length : ℚ)) := by
  refine ⟨rfl, rfl, by decide, ?_⟩
  have h5 : (MPDClient.applyState MPDClient.initialPlayer statusSong5 queueOneEntry).index = 5 := by
    decide
  have h1 : (MPDClient.applyState MPDClient.initialPlayer statusSong5 queueOneEntry).queue.length = 1 := rfl
  rw [h5, h1]
  norm_num

/-- C3, amended: the two-sided invariant only survives for the
id-search path: when the status payload carries no explicit `song`
position, the resolved index is an integral value in
`[-1, rawQueue.length)`, and an empty raw queue forces `index = -1`.
(With an explicit `song` field the position is trusted unchecked, and
the stored queue may also be shorter than the raw one after dropping
unusable entries, so no bound against the stored queue holds.) -/
theorem applyState_index_bounds (p : MPDClient.Player) (sp qp : JSVal)
    (h : isNullish (getKey (MPDClient.statusOf sp) "song") = true) :
    -1 ≤ (MPDClient.applyState p sp qp).index ∧
    (MPDClient.applyState p sp qp).index < ((MPDClient.rawQueue qp).length : ℚ) ∧
    ((MPDClient.applyState p sp qp).index).den = 1 ∧
    (MPDClient.rawQueue qp = [] → (MPDClient.applyState p sp qp).index = -1) := by
  have hidx : (MPDClient.applyState p sp qp).index =
      parseIndex (MPDClient.statusOf sp) (MPDClient.currentOf sp) (MPDClient.rawQueue qp) := by
    simp [MPDClient.applyState]
  rw [hidx]
  unfold parseIndex
  rw [if_neg (fun hc => hc h)]
  by_cases hid : isNullish (getKey (MPDClient.currentOf sp) "id") = true
  · rw [if_neg (fun hc => hc hid)]
    refine ⟨le_refl _, ?_, by decide, fun _ => rfl⟩
    have hlen : (0 : ℚ) ≤ ((MPDClient.rawQueue qp).length : ℚ) := by positivity
    linarith
  · rw [if_pos hid]
    obtain ⟨hb1, hb2⟩ := jsFindIndex_bounds
      (fun q => jsToString (getKey q "id") == jsToString (getKey (MPDClient.currentOf sp) "id"))
      (MPDClient.rawQueue qp)
    refine ⟨by exact_mod_cast hb1, by exact_mod_cast hb2, Rat.den_intCast _, fun he => ?_⟩
    rw [he]
    norm_num [jsFindIndex]

/-- Witness for C3's amended theorem at the id-2 scenario payloads. -/
theorem applyState_index_bounds_witness :
    -1 ≤ (MPDClient.applyState MPDClient.initialPlayer statusCurrentId2 queueThree).index ∧
    (MPDClient.applyState MPDClient.initialPlayer statusCurrentId2 queueThree).index <
      ((MPDClient.rawQueue queueThree).length : ℚ) :=
  ⟨(applyState_index_bounds MPDClient.initialPlayer statusCurrentId2 queueThree rfl).1,
   (applyState_index_bounds MPDClient.initialPlayer statusCurrentId2 queueThree rfl).2.1⟩

/-! ## C4 -/

/-- C4, counterexample: with queue `[{id:1},{id:2},{id:3}]` and a status
whose current-song object is the bare `{id:2}` (its id equals the id of
queue entry 1), normalization resolves `index = 1` but sets `track` to
`toTrack({id:2}) = null`, not to the normalized queue entry at position
1 (which is non-null) — the claim's `track = normalized queue[1]` fails. -/
theorem applyState_track_is_not_queue_entry :
    (MPDClient.applyState MPDClient.initialPlayer statusCurrentId2 queueThree).index = 1 ∧
    (MPDClient.applyState MPDClient.initialPlayer statusCurrentId2 queueThree).track = none ∧
    toTrack songTwo ≠ none ∧
    (MPDClient.applyState MPDClient.initialPlayer statusCurrentId2 queueThree).track ≠
      toTrack songTwo := by
  have htr : (MPDClient.applyState MPDClient.initialPlayer statusCurrentId2 queueThree).track
      = none := rfl
  have hs : (toTrack songTwo).isSome = true := rfl
  refine ⟨by decide, htr, ?_, ?_⟩
  · intro hnone
    rw [hnone] at hs
    simp at hs
  · intro heq
    rw [htr] at heq
    rw [← heq] at hs
    simp at hs

/-- C4, amended: in the scenario (no explicit `song` position; a
current-song object whose id matches the id of entry 1 of a three-entry
queue and not that of entry 0), normalization resolves `index = 1`, and
sets `track` to the normalization of the current-song object itself —
which coincides with the normalized queue entry at position 1 exactly
when the current-song object is that entry (as in the witness), but not
in general. -/
theorem applyState_current_id_match (p : MPDClient.Player) (stl : List (String × JSVal))
    (qa qb qc cur : JSVal)
    (hsong : isNullish (getKey (JSVal.obj stl) "song") = true)
    (hcur : jsTruthy cur = true)
    (hid : isNullish (getKey cur "id") = false)
    (h0 : (jsToString (getKey qa "id") == jsToString (getKey cur "id")) = false)
    (h1 : (jsToString (getKey qb "id") == jsToString (getKey cur "id")) = true) :
    (MPDClient.applyState p (.obj [("status", .obj stl), ("current", cur)])
      (.arr [qa, qb, qc])).index = 1 ∧
    (MPDClient.applyState p (.obj [("status", .obj stl), ("current", cur)])
      (.arr [qa, qb, qc])).track = toTrack cur := by
  have hsp : MPDClient.statusOf (JSVal.obj [("status", JSVal.obj stl), ("current", cur)]) =
      JSVal.obj stl := rfl
  have hcu : MPDClient.currentOf (JSVal.obj [("status", JSVal.obj stl), ("current", cur)]) =
      cur := by
    show (if jsTruthy cur = true then cur else jsOr JSVal.undefined JSVal.null) = cur
    rw [if_pos hcur]
  have hfind : jsFindIndex
      (fun q => jsToString (getKey q "id") == jsToString (getKey cur "id")) [qa, qb, qc] = 1 := by
    simp only [jsFindIndex, h0, h1]
    norm_num
  constructor
  · have hix : (MPDClient.applyState p (.obj [("status", .obj stl), ("current", cur)])
        (.arr [qa, qb, qc])).index = parseIndex (JSVal.obj stl) cur [qa, qb, qc] := by
      simp [MPDClient.applyState, hsp, hcu, MPDClient.rawQueue]
    rw [hix]
    unfold parseIndex
    rw [if_neg (fun hc => hc hsong), if_pos (by simp [hid]), hfind]
    norm_num
  · simp [MPDClient.applyState, hcu, hcur]

/-- Witness for C4's amended theorem: the current-song object is the
queue entry with id 2 itself, so `track` is the normalized queue entry
at position 1, as in the spec's scenario. -/
theorem applyState_current_id_match_witness :
    (MPDClient.applyState MPDClient.initialPlayer
      (.obj [("status", .obj [("state", .str "play")]), ("current", songTwo)])
      (.arr [songOne, songTwo, songThree])).index = 1 ∧
    (MPDClient.applyState MPDClient.initialPlayer
      (.obj [("status", .obj [("state", .str "play")]), ("current", songTwo)])
      (.arr [songOne, songTwo, songThree])).track = toTrack songTwo :=
  applyState_current_id_match MPDClient.initialPlayer [("state", .str "play")]
    songOne songTwo songThree songTwo rfl rfl rfl (by decide) (by decide)

/-! ## C6 -/

/-- The per-key decision of `deepMerge`: recursive merge when both the
incoming and the existing value are non-array objects, wholesale
replacement otherwise. -/
def mergeValue (dst : List (String × JSVal)) (k : String) (v : JSVal) : JSVal :=
  match v, getEntry dst k with
  | .obj pv, .obj dv => .obj (deepMergeObj dv pv)
  | _, _ => v

/-- Reading back the key just assigned. -/
theorem getEntry_setKey_self (dst : List (String × JSVal)) (k : String) (v : JSVal) :
    getEntry (setKey dst k v) k = v := by
  induction dst with
  | nil => simp [setKey, getEntry]
  | cons kv rest ih =>
    obtain ⟨k', v'⟩ := kv
    by_cases h : k' = k
    · simp [setKey, getEntry, h]
    · simp [setKey, getEntry, h, ih]

/-- Assignment does not disturb other keys. -/
theorem getEntry_setKey_ne (dst : List (String × JSVal)) (k k' : String) (v : JSVal)
    (h : k' ≠ k) : getEntry (setKey dst k v) k' = getEntry dst k' := by
  induction dst with
  | nil =>
    simp only [setKey, getEntry]
    rw [if_neg (fun he : k = k' => h he.symm)]
  | cons kv rest ih =>
    obtain ⟨k0, v0⟩ := kv
    by_cases h0 : k0 = k
    · subst h0
      simp only [setKey, if_pos rfl, getEntry]
      rw [if_neg (fun he : k0 = k' => h he.symm), if_neg (fun he : k0 = k' => h he.symm)]
    · simp only [setKey, if_neg h0, getEntry]
      by_cases h1 : k0 = k'
      · rw [if_pos h1, if_pos h1]
      · rw [if_neg h1, if_neg h1, ih]

/-- One step of `deepMerge`: the head patch entry is assigned (merged or
wholesale) before the rest is processed. -/
theorem deepMergeObj_cons (dst : List (String × JSVal)) (k : String) (v : JSVal)
    (rest : List (String × JSVal)) :
    deepMergeObj dst ((k, v) :: rest) = deepMergeObj (setKey dst k (mergeValue dst k v)) rest := by
  cases v <;> cases hdv : getEntry dst k <;> simp [deepMergeObj, mergeValue, hdv]

/-- Keys not mentioned by the patch are untouched by `deepMerge`. -/
theorem getEntry_deepMergeObj_not_mem (dst patch : List (String × JSVal)) (k : String)
    (h : k ∉ patch.map Prod.fst) :
    getEntry (deepMergeObj dst patch) k = getEntry dst k := by
  induction patch generalizing dst with
  | nil => simp [deepMergeObj]
  | cons kv rest ih =>
    obtain ⟨k', v⟩ := kv
    simp only [List.map_cons, List.mem_cons] at h
    push_neg at h
    obtain ⟨hk, hr⟩ := h
    rw [deepMergeObj_cons, ih _ hr, getEntry_setKey_ne _ _ _ _ hk]

/-- C6: `set(patch)` merges the patch into the state (object-valued
fields recursively key-by-key, array-valued and scalar fields replaced
wholesale, untouched keys retained), then synchronously invokes every
registered subscriber exactly once — in registration order — with the
full merged state, which is what `get()` then returns. -/
theorem storeSet_spec (s : Store) (patch : List (String × JSVal)) :
    (storeSet s patch).1.state = deepMergeObj s.state patch ∧
    storeGet (storeSet s patch).1 = deepMergeObj s.state patch ∧
    ((storeSet s patch).2.map Prod.fst = s.subs) ∧
    (∀ e ∈ (storeSet s patch).2, e.2 = deepMergeObj s.state patch) ∧
    (∀ dst k v, getEntry (deepMergeObj dst [(k, v)]) k = mergeValue dst k v) ∧
    (∀ k, k ∉ patch.map Prod.fst →
      getEntry (deepMergeObj s.state patch) k = getEntry s.state k) := by
  refine ⟨rfl, rfl, ?_, ?_, ?_, ?_⟩
  · simp only [storeSet]
    induction s.subs with
    | nil => rfl
    | cons a l ih => simp only [List.map_cons, ih]
  · intro e he
    simp only [storeSet, List.mem_map] at he
    obtain ⟨f, _, hf⟩ := he
    rw [← hf]
  · intro dst k v
    rw [deepMergeObj_cons]
    simp [deepMergeObj, getEntry_setKey_self]
  · intro k hk
    exact getEntry_deepMergeObj_not_mem s.state patch k hk

/-- Witness for C6 at a concrete store and patch: an unpatched key is
retained and a subscriber invocation carries the merged state. -/
theorem storeSet_spec_witness :
    getEntry (deepMergeObj [("b", JSVal.num 3)] [("a", JSVal.num 2)]) "b" =
      getEntry [("b", JSVal.num 3)] "b" ∧
    ((0 : ℕ), deepMergeObj [("b", JSVal.num 3)] [("a", JSVal.num 2)]).2 =
      deepMergeObj [("b", JSVal.num 3)] [("a", JSVal.num 2)] :=
  ⟨(storeSet_spec ⟨[("b", JSVal.num 3)], []⟩ [("a", JSVal.num 2)]).2.2.2.2.2 "b" (by decide),
   (storeSet_spec ⟨[("b", JSVal.num 3)], [0]⟩ [("a", JSVal.num 2)]).2.2.2.1
     ((0 : ℕ), deepMergeObj [("b", JSVal.num 3)] [("a", JSVal.num 2)])
     (List.mem_cons_self _ _)⟩

/-! ## C7 -/

/-- C7, counterexample: `volume: null` is a non-numeric volume field,
yet JS coerces `null` to `0`, so normalization reports a mixer: the code
sets `canSetVolume = true` and overwrites the prior volume (29) with 0,
where the claim demands `canSetVolume = false` and an untouched volume. -/
theorem applyState_null_volume_enables_mixer :
    (MPDClient.applyState MPDClient.initialPlayer statusVolumeNull (.arr [])).canSetVolume = true ∧
    (MPDClient.applyState MPDClient.initialPlayer statusVolumeNull (.arr [])).volume = 0 ∧
    MPDClient.initialPlayer.volume = 29 :=
  ⟨rfl, by decide, by decide⟩

/-- C7, amended: `canSetVolume` is true iff the volume field coerces
(per JS `Number`) to a value ≥ 0 — this covers numeric values ≥ 0 but
also `null`/`""`, which coerce to 0, unlike the claim's "non-numeric"
wording; the stored volume is unchanged whenever no mixer is detected
(missing field, NaN coercion, or negative value) and is set to the
coerced value otherwise. -/
theorem applyState_volume_spec (p : MPDClient.Player) (sp qp : JSVal) :
    ((MPDClient.applyState p sp qp).canSetVolume = true ↔
      (∃ q, toNumber (getKey (MPDClient.statusOf sp) "volume") = some q ∧ 0 ≤ q)) ∧
    ((MPDClient.applyState p sp qp).canSetVolume = false →
      (MPDClient.applyState p sp qp).volume = p.volume) ∧
    (∀ q, toNumber (getKey (MPDClient.statusOf sp) "volume") = some q → 0 ≤ q →
      (MPDClient.applyState p sp qp).volume = q) := by
  have hcs : (MPDClient.applyState p sp qp).canSetVolume =
      (match toNumber (getKey (MPDClient.statusOf sp) "volume") with
       | some q => decide (0 ≤ q)
       | none => false) := by
    simp [MPDClient.applyState]
  have hvol : (MPDClient.applyState p sp qp).volume =
      (if (match toNumber (getKey (MPDClient.statusOf sp) "volume") with
           | some q => decide (0 ≤ q)
           | none => false) = true
       then (toNumber (getKey (MPDClient.statusOf sp) "volume")).getD 0
       else p.volume) := by
    simp [MPDClient.applyState]
  cases hv : toNumber (getKey (MPDClient.statusOf sp) "volume") with
  | none =>
    rw [hv] at hcs hvol
    refine ⟨?_, fun _ => ?_, fun q hq _ => Option.noConfusion hq⟩
    · rw [hcs]; simp
    · rw [hvol]; simp
  | some q =>
    rw [hv] at hcs hvol
    by_cases hq : 0 ≤ q
    · refine ⟨?_, ?_, fun q2 hq2 hq2' => ?_⟩
      · rw [hcs]
        simp only [decide_eq_true_eq]
        exact ⟨fun _ => ⟨q, rfl, hq⟩, fun _ => hq⟩
      · intro hfalse
        rw [hcs] at hfalse
        simp [hq] at hfalse
      · rw [hvol]
        have hqq : q = q2 := by injection hq2
        subst hqq
        simp [hq]
    · refine ⟨?_, ?_, fun q2 hq2 hq2' => ?_⟩
      · rw [hcs]
        simp only [decide_eq_true_eq]
        constructor
        · intro hcon; exact absurd hcon hq
        · rintro ⟨q2, hq2, hq2'⟩
          have : q = q2 := by injection hq2
          subst this
          exact absurd hq2' hq
      · intro _
        rw [hvol]
        simp [hq]
      · have : q = q2 := by injection hq2
        subst this
        exact absurd hq2' hq

/-- Witness for C7's amended theorem: a reported `volume: 20` updates
the stored volume to 20. -/
theorem applyState_volume_spec_witness :
    (MPDClient.applyState MPDClient.initialPlayer statusVolume20 (.arr [])).volume = 20 :=
  (applyState_volume_spec MPDClient.initialPlayer statusVolume20 (.arr [])).2.2 20 rfl
    (by norm_num)

/-! ## C8 -/

/-- C8: normalization of `time: "37:214"` (no explicit fields) yields
`elapsed = 37` and `duration = 214`; and whenever explicit
`elapsed`/`duration` fields are present (non-nullish), `parseElapsed`
and `parseDuration` return their coerced values, ignoring any `time`
string present simultaneously. -/
theorem elapsed_duration_roundtrip_and_precedence :
    (MPDClient.applyState MPDClient.initialPlayer statusTime (.arr [])).elapsed = 37 ∧
    (MPDClient.applyState MPDClient.initialPlayer statusTime (.arr [])).duration = 214 ∧
    (∀ st, isNullish (getKey st "elapsed") = false →
      parseElapsed st = numOr0 (getKey st "elapsed")) ∧
    (∀ st cur, isNullish (getKey st "duration") = false →
      parseDuration st cur = numOr0 (getKey st "duration")) := by
  refine ⟨by decide, by decide, ?_, ?_⟩
  · intro st h
    unfold parseElapsed
    rw [if_pos (by simp [h])]
  · intro st cur h
    unfold parseDuration
    rw [if_pos (by simp [h])]

/-- Witness for C8: with `elapsed: 10, duration: 200` present alongside
`time: "37:214"`, the explicit fields win (10 and 200). -/
theorem elapsed_duration_roundtrip_and_precedence_witness :
    parseElapsed stExplicit = numOr0 (getKey stExplicit "elapsed") ∧
    parseDuration stExplicit .null = numOr0 (getKey stExplicit "duration") ∧
    numOr0 (getKey stExplicit "elapsed") = 10 ∧
    numOr0 (getKey stExplicit "duration") = 200 :=
  ⟨elapsed_duration_roundtrip_and_precedence.2.2.1 stExplicit rfl,
   elapsed_duration_roundtrip_and_precedence.2.2.2 stExplicit .null rfl,
   by decide, by decide⟩

/-! ## C9 -/

/-- C9: `setVolume` transmits `Math.max(0, Math.min(100,
Math.round(vol)))`: 150 becomes 100, -5 becomes 0, 42.6 becomes 43 (and
the transmitted command strings match); the transmitted value always
lies in [0, 100], and the rounding is to a nearest integer (distance at
most 1/2). -/
theorem setVolume_clamps (vol : ℚ) :
    MPDClient.setVolumeNext 150 = 100 ∧
    MPDClient.setVolumeNext (-5) = 0 ∧
    MPDClient.setVolumeNext (42.6 : ℚ) = 43 ∧
    MPDClient.setVolumeCmd 150 = "volume 100" ∧
    MPDClient.setVolumeCmd (-5) = "volume 0" ∧
    MPDClient.setVolumeCmd (42.6 : ℚ) = "volume 43" ∧
    0 ≤ MPDClient.setVolumeNext vol ∧
    MPDClient.setVolumeNext vol ≤ 100 ∧
    |((jsMathRound vol : ℤ) : ℚ) - vol| ≤ 1 / 2 := by
  have h150 : MPDClient.setVolumeNext 150 = 100 := by
    norm_num [MPDClient.setVolumeNext, jsMathRound]
  have hm5 : MPDClient.setVolumeNext (-5) = 0 := by
    norm_num [MPDClient.setVolumeNext, jsMathRound]
  have h426 : MPDClient.setVolumeNext (42.6 : ℚ) = 43 := by
    norm_num [MPDClient.setVolumeNext, jsMathRound]
  refine ⟨h150, hm5, h426, ?_, ?_, ?_, le_max_left _ _,
    max_le (by norm_num) (min_le_left _ _), ?_⟩
  · unfold MPDClient.setVolumeCmd
    rw [h150]
    decide
  · unfold MPDClient.setVolumeCmd
    rw [hm5]
    decide
  · unfold MPDClient.setVolumeCmd
    rw [h426]
    decide
  · have h1 : ((jsMathRound vol : ℤ) : ℚ) ≤ vol + 1 / 2 := Int.floor_le _
    have h2 : vol + 1 / 2 < ((jsMathRound vol : ℤ) : ℚ) + 1 := Int.lt_floor_add_one _
    rw [abs_le]
    constructor <;> linarith
